import Mathlib

/-
Verification of the schema-driven property translation layer of the
Task-Notion adapter (src/server/server.js) against its specification.

The JavaScript handlers are shallowly embedded below: JSON values become
the inductive type JSValue, Notion raw property payloads become RawProp,
outgoing write payloads become WriteValue, and each route-handler
function (schema derivation, extractPropertyValue, setPropertyValue,
the GET-handler record mapping, the POST-handler create path and the
PATCH-handler completed-flag merge) becomes an executable Lean function
translated line by line from the source.
-/

set_option maxHeartbeats 1000000

namespace TaskNotion

/-- JSON-style values as handled by the JavaScript route handlers.
JavaScript numbers are IEEE doubles; only integral values occur in the
properties the claims are about, so numbers are modeled as integers. -/
inductive JSValue where
  | str (s : String)
  | num (n : Int)
  | bool (b : Bool)
  | null
  | arr (elems : List JSValue)

/-- JavaScript truthiness (`Boolean(value)` and implicit `if` tests):
empty strings, zero, `false` and `null` are falsy; arrays are truthy. -/
def jsTruthy : JSValue → Bool
  | .str s => s != ""
  | .num n => n != 0
  | .bool b => b
  | .null => false
  | .arr _ => true

mutual

/-- JavaScript `String(value)` coercion for the values modeled here. -/
def jsString : JSValue → String
  | .str s => s
  | .num n => toString n
  | .bool b => if b then "true" else "false"
  | .null => "null"
  | .arr vs => jsStringJoin vs

/-- `Array.prototype.toString`: elements joined with commas, with null
elements rendered as the empty string. -/
def jsStringJoin : List JSValue → String
  | [] => ""
  | [.null] => ""
  | [v] => jsString v
  | .null :: rest => "," ++ jsStringJoin rest
  | v :: rest => jsString v ++ "," ++ jsStringJoin rest

end

/-- JavaScript `s.toLowerCase()`.  The names this layer lowercases (status
option names and the fixed done-vocabulary) are ASCII, so ASCII
per-character lowercasing models the call. -/
def jsToLower (s : String) : String := ⟨s.data.map Char.toLower⟩

/-- `value === ''`: true exactly for the empty-string value. -/
def isEmptyStr : JSValue → Bool
  | .str s => s == ""
  | _ => false

/-- The fixed done-vocabulary `['done','complete','completed']` used both
when decoding a string-valued boolean property and when partitioning the
options of a status property in the PATCH handler. -/
def doneNames : List String := ["done", "complete", "completed"]

/-- A choice name is done-like when its lowercase form is in `doneNames`. -/
def isDoneLike (name : String) : Bool := doneNames.contains (jsToLower name)

/-- The declared kind (`prop.type`) of one external property. -/
inductive PropKind where
  | title
  | rich_text
  | select
  | multi_select
  | checkbox
  | date
  | url
  | number
  | status
  | other
deriving DecidableEq

/-- One property definition from the external database: its `type` tag and,
for status properties, the declared option names (`prop.status.options`,
defaulting to `[]` as in `propertySchema.status.options || []`). -/
structure PropSchema where
  type : PropKind
  statusOptions : List String := []
deriving DecidableEq

/-- `prop.type === 'title'`. -/
def isTitleKind (ps : PropSchema) : Bool :=
  match ps.type with
  | .title => true
  | _ => false

/-- `prop.type === 'checkbox' || prop.type === 'status'`. -/
def isBoolLike (ps : PropSchema) : Bool :=
  match ps.type with
  | .checkbox => true
  | .status => true
  | _ => false

/-- The external database schema: `database.properties` as an ordered
association list (JavaScript object entries preserve insertion order). -/
structure Schema where
  properties : List (String × PropSchema)
deriving DecidableEq

/-- `Object.entries(database.properties).find(([,prop]) => prop.type === 'title')?.[0]`. -/
def titleProperty (s : Schema) : Option String :=
  (s.properties.find? (fun p => isTitleKind p.2)).map Prod.fst

/-- The derived `checkboxProperties` list: keys of checkbox- and
status-kind properties, in definition order. -/
def checkboxProperties (s : Schema) : List String :=
  (s.properties.filter (fun p => isBoolLike p.2)).map Prod.fst

/-- The derived `dateProperties` list. -/
def dateProperties (s : Schema) : List String :=
  (s.properties.filter (fun p => match p.2.type with | .date => true | _ => false)).map Prod.fst

/-- The derived `selectProperties` list. -/
def selectProperties (s : Schema) : List String :=
  (s.properties.filter (fun p => match p.2.type with | .select => true | .multi_select => true | _ => false)).map Prod.fst

/-- The derived `textProperties` list. -/
def textProperties (s : Schema) : List String :=
  (s.properties.filter (fun p => match p.2.type with | .rich_text => true | _ => false)).map Prod.fst

/-- The derived `numberProperties` list. -/
def numberProperties (s : Schema) : List String :=
  (s.properties.filter (fun p => match p.2.type with | .number => true | _ => false)).map Prod.fst

/-- JavaScript object indexing `obj[k]` on an association list: the value
at the first matching key, or `none` when the key is absent. -/
def lookupKey {α : Type} (k : String) : List (String × α) → Option α
  | [] => none
  | p :: rest => if p.1 = k then some p.2 else lookupKey k rest

/-- JavaScript object assignment `obj[k] = v`: replaces the value at an
existing key in place, otherwise appends the new key at the end. -/
def setKey {α : Type} : List (String × α) → String → α → List (String × α)
  | [], k, v => [(k, v)]
  | p :: rest, k, v => if p.1 = k then (k, v) :: rest else p :: setKey rest k v

/-- A raw Notion property value as it appears on a fetched page. Rich-text
runs are modeled by their `plain_text` strings; option objects by their
`name` strings; a `none` in `select`/`status`/`date`/`url`/`number` models
the corresponding null (for `date`, a null date or a null start). -/
inductive RawProp where
  | title (runs : List String)
  | rich_text (runs : List String)
  | select (name : Option String)
  | multi_select (names : List String)
  | checkbox (b : Bool)
  | date (start : Option String)
  | url (u : Option String)
  | number (n : Option Int)
  | status (name : Option String)
  | other
deriving DecidableEq

/-- `extractPropertyValue(property)` from server.js: decodes one raw
property to a uniform value, with `null` for a missing property and for
unrecognized kinds.  The `|| null` coercions on `select?.name`,
`date?.start` and `status?.name` collapse falsy (empty-string) values to
null exactly as the source does. -/
def extractPropertyValue : Option RawProp → JSValue
  | Option.none => .null
  | some p =>
    match p with
    | .title runs => .str (String.join runs)
    | .rich_text runs => .str (String.join runs)
    | .select o => match o with | some n => if n = "" then .null else .str n | none => .null
    | .multi_select names => .arr (names.map JSValue.str)
    | .checkbox b => .bool b
    | .date o => match o with | some d => if d = "" then .null else .str d | none => .null
    | .url o => match o with | some u => .str u | none => .null
    | .number o => match o with | some n => .num n | none => .null
    | .status o => match o with | some n => if n = "" then .null else .str n | none => .null
    | .other => .null

/-- One type-specific external write payload, the result of
`setPropertyValue`.  For `date` the raw value is passed through unchanged
(`{ date: { start: value } }`); for `number` the source applies
`Number(value)`, an IEEE coercion not modeled here, so the pre-coercion
value is carried. -/
inductive WriteValue where
  | titleW (content : String)
  | richTextW (content : String)
  | selectW (name : String)
  | multiSelectW (names : List String)
  | checkboxW (b : Bool)
  | dateW (start : JSValue)
  | urlW (u : String)
  | numberW (raw : JSValue)
  | statusW (name : String)

/-- `setPropertyValue(propertyName, propertySchema, value)` from server.js:
encodes one uniform value into the external wire shape for the property's
declared kind, returning `none` for null values and unrecognized kinds.
The status case matches the requested name case-insensitively against the
declared options and otherwise falls back to `options[0]?.name ||
String(value)`. -/
def setPropertyValue (_propertyName : String) (propertySchema : PropSchema) (value : JSValue) : Option WriteValue :=
  match value with
  | .null => none
  | v =>
    match propertySchema.type with
    | .title => some (.titleW (jsString v))
    | .rich_text => some (.richTextW (jsString v))
    | .select => some (.selectW (jsString v))
    | .multi_select =>
        some (.multiSelectW (match v with
          | .arr vs => vs.map jsString
          | w => [jsString w]))
    | .checkbox => some (.checkboxW (jsTruthy v))
    | .date => some (.dateW v)
    | .url => some (.urlW (jsString v))
    | .number => some (.numberW v)
    | .status =>
        let options := propertySchema.statusOptions
        let matched := options.find? (fun opt => jsToLower opt == jsToLower (jsString v))
        let name :=
          match matched with
          | some m => m
          | none =>
            match options.head? with
            | some o0 => if o0 = "" then jsString v else o0
            | none => jsString v
        some (.statusW name)
    | .other => none

/-- A raw page returned by the external store: its id, creation time and
raw property values keyed by property name. -/
structure RawPage where
  id : String
  created_time : String
  properties : List (String × RawProp)
deriving DecidableEq

/-- The uniform record built by the GET /api/tasks handler.  `title` and
`completed` are absent (`none`) exactly when the handler leaves the
corresponding field unset on the result object. -/
structure UniformRecord where
  id : String
  createdAt : String
  title : Option JSValue := none
  completed : Option Bool := none
  properties : List (String × JSValue)

/-- The decoding loop of the GET /api/tasks handler:
`result.properties[key] = extractPropertyValue(prop)` over the page's
property entries. -/
def decodeProperties (page : RawPage) : List (String × JSValue) :=
  page.properties.map (fun p => (p.1, extractPropertyValue (some p.2)))

/-- `result.title = result.properties[schema.titleProperty] || 'Untitled'`,
guarded by `if (schema.titleProperty)` (so a missing — or empty-named,
hence falsy — title property leaves `title` unset). -/
def uniformTitle (schema : Schema) (props : List (String × JSValue)) : Option JSValue :=
  match titleProperty schema with
  | some t =>
    if t = "" then none
    else some (match lookupKey t props with
      | some v => if jsTruthy v then v else .str "Untitled"
      | none => .str "Untitled")
  | none => none

/-- The `result.completed` derivation of the GET /api/tasks handler,
guarded by `if (checkboxProp)` on the first checkbox-or-status property
name: a boolean value is taken directly, a string value is tested against
the done-vocabulary, anything else (including an absent value) is false. -/
def uniformCompleted (schema : Schema) (props : List (String × JSValue)) : Option Bool :=
  match (checkboxProperties schema).head? with
  | some cb =>
    if cb = "" then none
    else some (match lookupKey cb props with
      | some (.bool b) => b
      | some (.str sv) => doneNames.contains (jsToLower sv)
      | _ => false)
  | none => none

/-- The per-page mapping of the GET /api/tasks handler: decodes every
property on the page, then derives `title` (with the `|| 'Untitled'`
fallback) and `completed`. -/
def toUniform (schema : Schema) (page : RawPage) : UniformRecord :=
  { id := page.id, createdAt := page.created_time,
    title := uniformTitle schema (decodeProperties page),
    completed := uniformCompleted schema (decodeProperties page),
    properties := decodeProperties page }

/-- One iteration of the POST /api/tasks property loop: skip empty-string
values except for the title property, skip unknown keys, encode, and skip
null encodings. -/
def wpStep (schema : Schema) (acc : List (String × WriteValue)) (kv : String × JSValue) : List (String × WriteValue) :=
  if isEmptyStr kv.2 = true ∧ titleProperty schema ≠ some kv.1 then acc
  else
    match lookupKey kv.1 schema.properties with
    | none => acc
    | some propSchema =>
      match setPropertyValue kv.1 propSchema kv.2 with
      | none => acc
      | some formatted => setKey acc kv.1 formatted

/-- The `notionProps` object built by the POST /api/tasks handler from the
requested properties. -/
def toWritePayload (schema : Schema) (requestedProperties : List (String × JSValue)) : List (String × WriteValue) :=
  requestedProperties.foldl (wpStep schema) []

/-- The status-name choice of the PATCH handler's completed merge:
`properties.completed && done.length ? done[0].name : (notDone[0]?.name ||
done[0].name)`.  `none` models the TypeError thrown when the expression
indexes `done[0]` on an empty list. -/
def statusCompletedName (completedValue : JSValue) (opts : List String) : Option String :=
  let done := opts.filter (fun o => isDoneLike o)
  let notDone := opts.filter (fun o => !isDoneLike o)
  if jsTruthy completedValue && !done.isEmpty then done.head?
  else
    match notDone.head? with
    | some n => if n = "" then done.head? else some n
    | none => done.head?

/-- The completed-flag merge of the PATCH /api/tasks/:id handler: when the
request carries a `completed` key and the schema has at least one
checkbox-or-status property, the first such property is written (a coerced
boolean for checkbox kind, a partitioned status choice for status kind);
otherwise the payload passes through unchanged.  `none` models the handler
throwing (caught as a 500, so no write happens). -/
def applyCompletedFlag (schema : Schema) (requestedProperties : List (String × JSValue)) (payload : List (String × WriteValue)) : Option (List (String × WriteValue)) :=
  match lookupKey "completed" requestedProperties with
  | none => some payload
  | some completedValue =>
    match (checkboxProperties schema).head? with
    | none => some payload
    | some cb =>
      match lookupKey cb schema.properties with
      | none => none
      | some ps =>
        match ps.type with
        | .checkbox => some (setKey payload cb (.checkboxW (jsTruthy completedValue)))
        | .status =>
          match statusCompletedName completedValue ps.statusOptions with
          | some name => some (setKey payload cb (.statusW name))
          | none => none
        | _ => some payload

/-- The error outcomes of the POST /api/tasks handler. -/
inductive ApiError where
  | missingTitleProp
  | propsRequired
  | missingTitleValue
deriving DecidableEq

/-- The store's answer to a page creation, of which the handler reads only
`response.id` and `response.created_time`; the raw properties it also
carries are ignored. -/
structure StoreCreateResponse where
  id : String
  created_time : String
  properties : List (String × RawProp)
deriving DecidableEq

/-- The 201 body of the POST /api/tasks handler. -/
structure CreatedRecord where
  id : String
  title : Option JSValue
  createdAt : String
  properties : List (String × JSValue)

/-- The POST /api/tasks handler: requires a truthy schema `titleProperty`,
a properties object, and a truthy title value; on success sends
`toWritePayload` to the store (first component) and answers with the
store's id and creation time together with the request's own title value
and properties echoed back verbatim.  An error result performs no store
write. -/
def createRecord (schema : Schema) (requestedProperties : Option (List (String × JSValue))) (storeResponse : StoreCreateResponse) : Except ApiError (List (String × WriteValue) × CreatedRecord) :=
  match titleProperty schema with
  | none => .error .missingTitleProp
  | some t =>
    if t = "" then .error .missingTitleProp
    else
      match requestedProperties with
      | none => .error .propsRequired
      | some props =>
        match lookupKey t props with
        | none => .error .missingTitleValue
        | some v =>
          if jsTruthy v then
            .ok (toWritePayload schema props,
              { id := storeResponse.id, title := some v,
                createdAt := storeResponse.created_time, properties := props })
          else .error .missingTitleValue

/-- One call to `getDatabaseSchema` as a transition on the module-level
cache `databaseSchema`: given the cache contents and the outcome the
external fetch would have, returns the new cache contents, the call's
result, and whether the external fetch was actually performed.  A cached
schema is returned without fetching; a failed fetch propagates the error
and leaves the cache empty; a successful fetch populates the cache. -/
def getDatabaseSchema (cache : Option Schema) (fetched : Except Unit (List (String × PropSchema))) : Option Schema × Except Unit Schema × Bool :=
  match cache with
  | some s => (some s, .ok s, false)
  | none =>
    match fetched with
    | .error e => (none, .error e, true)
    | .ok raw => (some ⟨raw⟩, .ok ⟨raw⟩, true)

/-! ### Helper lemmas about the embedded operations -/

theorem lookupKey_setKey_ne {α : Type} (m : List (String × α)) (k a : String) (v : α) (h : a ≠ k) :
    lookupKey a (setKey m k v) = lookupKey a m := by
  induction m with
  | nil => simp [setKey, lookupKey, Ne.symm h]
  | cons p rest ih =>
    by_cases hp : p.1 = k
    · simp [setKey, hp, lookupKey, Ne.symm h]
    · simp only [setKey, if_neg hp, lookupKey]
      by_cases hp' : p.1 = a
      · simp [hp']
      · simp [hp', ih]

theorem mem_keys_setKey {α : Type} (m : List (String × α)) (k a : String) (v : α) :
    a ∈ (setKey m k v).map Prod.fst ↔ a ∈ m.map Prod.fst ∨ a = k := by
  induction m with
  | nil => simp [setKey]
  | cons p rest ih =>
    by_cases hp : p.1 = k
    · simp [setKey, hp]
      tauto
    · simp [setKey, hp, ih]
      tauto

theorem applyCompletedFlag_status_eq (s : Schema) (req : List (String × JSValue))
    (payload : List (String × WriteValue)) (cb : String) (ps : PropSchema) (c : JSValue)
    (hc : lookupKey "completed" req = some c)
    (hcb : (checkboxProperties s).head? = some cb)
    (hps : lookupKey cb s.properties = some ps)
    (hty : ps.type = PropKind.status) :
    applyCompletedFlag s req payload =
      (statusCompletedName c ps.statusOptions).map (fun name => setKey payload cb (.statusW name)) := by
  unfold applyCompletedFlag
  rw [hc, hcb]
  dsimp only
  rw [hps]
  dsimp only
  rw [hty]
  cases statusCompletedName c ps.statusOptions <;> rfl

theorem statusCompletedName_done (c : JSValue) (opts : List String) (d : String) (rest : List String)
    (hc : jsTruthy c = true) (hd : opts.filter (fun o => isDoneLike o) = d :: rest) :
    statusCompletedName c opts = some d := by
  unfold statusCompletedName
  rw [hd]
  simp [hc]

theorem statusCompletedName_notDone (c : JSValue) (opts : List String) (n : String) (rest : List String)
    (hcase : jsTruthy c = false ∨ opts.filter (fun o => isDoneLike o) = [])
    (hn : opts.filter (fun o => !isDoneLike o) = n :: rest) (hne : n ≠ "") :
    statusCompletedName c opts = some n := by
  unfold statusCompletedName
  rw [hn]
  rcases hcase with hc | hd
  · simp [hc, hne]
  · rw [hd]
    simp [hne]

theorem statusCompletedName_notDoneEmpty (c : JSValue) (opts : List String) (d : String) (rest : List String)
    (hn : opts.filter (fun o => !isDoneLike o) = [])
    (hd : opts.filter (fun o => isDoneLike o) = d :: rest) :
    statusCompletedName c opts = some d := by
  unfold statusCompletedName
  rw [hn, hd]
  by_cases hc : jsTruthy c <;> simp [hc]

theorem statusCompletedName_total (c : JSValue) (opts : List String)
    (h0 : opts ≠ []) (hne : ∀ o ∈ opts, o ≠ "") :
    ∃ name, name ∈ opts ∧ statusCompletedName c opts = some name := by
  rcases hd : opts.filter (fun o => isDoneLike o) with _ | ⟨d, drest⟩
  · rcases hn : opts.filter (fun o => !isDoneLike o) with _ | ⟨n, nrest⟩
    · exfalso
      rcases opts with _ | ⟨o, orest⟩
      · exact h0 rfl
      · by_cases ho : isDoneLike o
        · have : o ∈ List.filter (fun o => isDoneLike o) (o :: orest) :=
            List.mem_filter.mpr ⟨List.mem_cons_self o orest, ho⟩
          rw [hd] at this
          exact List.not_mem_nil o this
        · have : o ∈ List.filter (fun o => !isDoneLike o) (o :: orest) :=
            List.mem_filter.mpr ⟨List.mem_cons_self o orest, by simp [ho]⟩
          rw [hn] at this
          exact List.not_mem_nil o this
    · refine ⟨n, ?_, ?_⟩
      · have : n ∈ opts.filter (fun o => !isDoneLike o) := by rw [hn]; exact List.mem_cons_self n nrest
        exact List.mem_of_mem_filter this
      · apply statusCompletedName_notDone c opts n nrest (Or.inr hd) hn
        have : n ∈ opts.filter (fun o => !isDoneLike o) := by rw [hn]; exact List.mem_cons_self n nrest
        exact hne n (List.mem_of_mem_filter this)
  · have hdmem : d ∈ opts := by
      have : d ∈ opts.filter (fun o => isDoneLike o) := by rw [hd]; exact List.mem_cons_self d drest
      exact List.mem_of_mem_filter this
    rcases hn : opts.filter (fun o => !isDoneLike o) with _ | ⟨n, nrest⟩
    · exact ⟨d, hdmem, statusCompletedName_notDoneEmpty c opts d drest hn hd⟩
    · by_cases hc : jsTruthy c
      · exact ⟨d, hdmem, statusCompletedName_done c opts d drest hc hd⟩
      · refine ⟨n, ?_, ?_⟩
        · have : n ∈ opts.filter (fun o => !isDoneLike o) := by rw [hn]; exact List.mem_cons_self n nrest
          exact List.mem_of_mem_filter this
        · apply statusCompletedName_notDone c opts n nrest (Or.inl (by simpa using hc)) hn
          have : n ∈ opts.filter (fun o => !isDoneLike o) := by rw [hn]; exact List.mem_cons_self n nrest
          exact hne n (List.mem_of_mem_filter this)

/-- The condition under which the POST-handler loop writes a requested
key into the payload: not an empty-string value (unless it is the title
property), a matching property definition exists, and the encoding is
non-null. -/
def wpIncluded (s : Schema) (k : String) (v : JSValue) : Prop :=
  (isEmptyStr v = false ∨ titleProperty s = some k) ∧
  ∃ ps, lookupKey k s.properties = some ps ∧ setPropertyValue k ps v ≠ none

theorem mem_keys_wpStep (s : Schema) (acc : List (String × WriteValue)) (kv : String × JSValue) (a : String) :
    a ∈ (wpStep s acc kv).map Prod.fst ↔
      a ∈ acc.map Prod.fst ∨ (a = kv.1 ∧ wpIncluded s kv.1 kv.2) := by
  unfold wpStep
  by_cases hskip : isEmptyStr kv.2 = true ∧ titleProperty s ≠ some kv.1
  · rw [if_pos hskip]
    constructor
    · exact Or.inl
    · rintro (h | ⟨rfl, ⟨hfc, _⟩⟩)
      · exact h
      · rcases hfc with hf | ht
        · rw [hskip.1] at hf
          cases hf
        · exact absurd ht hskip.2
  · rw [if_neg hskip]
    have hfc : isEmptyStr kv.2 = false ∨ titleProperty s = some kv.1 := by
      by_cases he : isEmptyStr kv.2 = true
      · exact Or.inr (not_not.mp (not_and.mp hskip he))
      · exact Or.inl (by simpa using he)
    cases hlp : lookupKey kv.1 s.properties with
    | none =>
      dsimp only
      constructor
      · exact Or.inl
      · rintro (h | ⟨rfl, _, ⟨ps, hps, _⟩⟩)
        · exact h
        · rw [hlp] at hps
          cases hps
    | some ps =>
      dsimp only
      cases hsv : setPropertyValue kv.1 ps kv.2 with
      | none =>
        dsimp only
        constructor
        · exact Or.inl
        · rintro (h | ⟨rfl, _, ⟨ps', hps', hne⟩⟩)
          · exact h
          · rw [hlp, Option.some.injEq] at hps'
            subst hps'
            exact absurd hsv hne
      | some w =>
        dsimp only
        rw [mem_keys_setKey]
        constructor
        · rintro (h | rfl)
          · exact Or.inl h
          · exact Or.inr ⟨rfl, hfc, ps, hlp, by rw [hsv]; exact Option.some_ne_none w⟩
        · rintro (h | ⟨rfl, _⟩)
          · exact Or.inl h
          · exact Or.inr rfl

theorem mem_keys_wpFoldl (s : Schema) (req : List (String × JSValue)) (acc : List (String × WriteValue)) (a : String) :
    a ∈ (req.foldl (wpStep s) acc).map Prod.fst ↔
      a ∈ acc.map Prod.fst ∨ ∃ v, (a, v) ∈ req ∧ wpIncluded s a v := by
  induction req generalizing acc with
  | nil => simp
  | cons kv rest ih =>
    rw [List.foldl_cons, ih, mem_keys_wpStep]
    constructor
    · rintro ((h | ⟨rfl, hinc⟩) | ⟨v, hv, hinc⟩)
      · exact Or.inl h
      · exact Or.inr ⟨kv.2, by simp, hinc⟩
      · exact Or.inr ⟨v, List.mem_cons_of_mem kv hv, hinc⟩
    · rintro (h | ⟨v, hv, hinc⟩)
      · exact Or.inl (Or.inl h)
      · rcases List.mem_cons.mp hv with heq | hmem
        · refine Or.inl (Or.inr ?_)
          have h1 : a = kv.1 := by rw [← heq]
          have h2 : v = kv.2 := by rw [← heq]
          subst h1
          subst h2
          exact ⟨rfl, hinc⟩
        · exact Or.inr ⟨v, hmem, hinc⟩

/-! ### Claim theorems -/

/-- Claim C6: when the schema fetch fails, `getDatabaseSchema` propagates
the error and the cache stays empty, so the next call (cache still `none`)
re-attempts the external fetch; a successful fetch populates the cache;
and with a populated cache every call returns the cached schema without
fetching (third component records whether the fetch was performed). -/
theorem C6_schema_cache_retry_and_idempotence (raw : List (String × PropSchema)) (s : Schema)
    (f : Except Unit (List (String × PropSchema))) :
    getDatabaseSchema none (.error ()) = (none, .error (), true)
    ∧ getDatabaseSchema none (.ok raw) = (some ⟨raw⟩, .ok ⟨raw⟩, true)
    ∧ getDatabaseSchema (some s) f = (some s, .ok s, false) :=
  ⟨rfl, rfl, rfl⟩

/-- Claim C8: for Title- and Text-kind raw values, decoding to a string
and re-encoding that string yields a payload whose text content is exactly
the decoded string (encode after decode is the identity on string
content, modulo run segmentation). -/
theorem C8_text_title_roundtrip (runs : List String) (k : String) (opts : List String) :
    ∃ s, extractPropertyValue (some (RawProp.title runs)) = .str s
      ∧ setPropertyValue k ⟨.title, opts⟩ (.str s) = some (.titleW s)
      ∧ extractPropertyValue (some (RawProp.rich_text runs)) = .str s
      ∧ setPropertyValue k ⟨.rich_text, opts⟩ (.str s) = some (.richTextW s) :=
  ⟨String.join runs, rfl, rfl, rfl, rfl⟩

/-- Claim C5: `createRecord` fails with the missing-title-property
configuration error when the schema has no (truthy) Title-kind property,
and fails with the missing-title-value error — producing no store write,
since only an `.ok` result carries a write payload — whenever the title
value is absent or empty; in particular it fails so on an empty
properties mapping. -/
theorem C5_createRecord_missing_title (schema : Schema) (resp : StoreCreateResponse) :
    (titleProperty schema = none → ∀ req, createRecord schema req resp = .error .missingTitleProp)
    ∧ (∀ t props, titleProperty schema = some t → t ≠ "" →
        (lookupKey t props = none ∨ lookupKey t props = some (.str "")) →
        createRecord schema (some props) resp = .error .missingTitleValue)
    ∧ (∀ t, titleProperty schema = some t → t ≠ "" →
        createRecord schema (some []) resp = .error .missingTitleValue) := by
  refine ⟨?_, ?_, ?_⟩
  · intro h req
    unfold createRecord
    rw [h]
  · intro t props ht ht2 hv
    unfold createRecord
    rw [ht]
    dsimp only
    rw [if_neg ht2]
    rcases hv with hv | hv
    · rw [hv]
    · rw [hv]
      rfl
  · intro t ht ht2
    unfold createRecord
    rw [ht]
    dsimp only
    rw [if_neg ht2]
    rfl

/-- Witness for C5: on the schema with title property "Name", creating
from the empty mapping fails with the missing-title-value error. -/
theorem C5_witness :
    createRecord ⟨[("Name", ⟨.title, []⟩)]⟩ (some []) ⟨"id1", "time1", []⟩ = .error .missingTitleValue :=
  (C5_createRecord_missing_title ⟨[("Name", ⟨.title, []⟩)]⟩ ⟨"id1", "time1", []⟩).2.2 "Name" rfl (by decide)

/-- Claim C10: a successful `createRecord` answers with the request's own
properties mapping and title value echoed back verbatim, taking only the
id and creation time from the store's response (whose raw properties are
ignored, not decoded back). -/
theorem C10_create_echoes_request (schema : Schema) (props : List (String × JSValue))
    (resp : StoreCreateResponse) (t : String) (v : JSValue)
    (ht : titleProperty schema = some t) (ht2 : t ≠ "")
    (hv : lookupKey t props = some v) (htr : jsTruthy v = true) :
    createRecord schema (some props) resp =
      .ok (toWritePayload schema props,
        { id := resp.id, title := some v, createdAt := resp.created_time, properties := props }) := by
  unfold createRecord
  rw [ht]
  dsimp only
  rw [if_neg ht2]
  rw [hv]
  dsimp only
  rw [if_pos htr]

/-- Witness for C10: the store answers with a different stored title, yet
the 201 body echoes the requested "Hi". -/
theorem C10_witness :
    createRecord ⟨[("Name", ⟨.title, []⟩)]⟩ (some [("Name", .str "Hi")])
        ⟨"id9", "t9", [("Name", RawProp.title ["Stored"])]⟩ =
      .ok ([("Name", .titleW "Hi")],
        { id := "id9", title := some (.str "Hi"), createdAt := "t9",
          properties := [("Name", .str "Hi")] }) := by
  have h := C10_create_echoes_request ⟨[("Name", ⟨.title, []⟩)]⟩ [("Name", .str "Hi")]
    ⟨"id9", "t9", [("Name", RawProp.title ["Stored"])]⟩ "Name" (.str "Hi") rfl (by decide) rfl rfl
  rw [h]
  rfl

/-- Counterexample for C3: with an empty declared-choices list, an
unmatched requested name is not replaced by any declared choice — the
payload carries the requested name itself, which is not among the
(empty) choices. -/
theorem C3_counterexample :
    setPropertyValue "Status" ⟨.status, []⟩ (.str "X") = some (.statusW "X")
    ∧ "X" ∉ (⟨.status, []⟩ : PropSchema).statusOptions :=
  ⟨rfl, by simp⟩

/-- Claim C3 (amended): for a non-null requested value, a Status-kind
encode never yields a null payload; a case-insensitive match against the
declared choices is written under its declared name; an unmatched name
falls back to the first declared choice provided the choices list is
non-empty and its first name is non-empty (otherwise the requested name
is sent as-is). -/
theorem C3_status_encode_fallback (k : String) (ps : PropSchema) (v : JSValue)
    (hty : ps.type = PropKind.status) (hv : v ≠ .null) :
    (∃ name, setPropertyValue k ps v = some (.statusW name))
    ∧ (∀ m, ps.statusOptions.find? (fun opt => jsToLower opt == jsToLower (jsString v)) = some m →
        setPropertyValue k ps v = some (.statusW m))
    ∧ (∀ o0 rest, ps.statusOptions = o0 :: rest → o0 ≠ "" →
        ps.statusOptions.find? (fun opt => jsToLower opt == jsToLower (jsString v)) = none →
        setPropertyValue k ps v = some (.statusW o0))
    ∧ (ps.statusOptions = [] →
        setPropertyValue k ps v = some (.statusW (jsString v)))
    ∧ (∀ rest, ps.statusOptions = "" :: rest →
        ps.statusOptions.find? (fun opt => jsToLower opt == jsToLower (jsString v)) = none →
        setPropertyValue k ps v = some (.statusW (jsString v))) := by
  refine ⟨?_, ?_, ?_, ?_, ?_⟩
  · cases v with
    | null => exact absurd rfl hv
    | str sv => exact ⟨_, by unfold setPropertyValue; rw [hty]⟩
    | num n => exact ⟨_, by unfold setPropertyValue; rw [hty]⟩
    | bool b => exact ⟨_, by unfold setPropertyValue; rw [hty]⟩
    | arr es => exact ⟨_, by unfold setPropertyValue; rw [hty]⟩
  · intro m hm
    cases v with
    | null => exact absurd rfl hv
    | str sv => unfold setPropertyValue; rw [hty]; dsimp only; rw [hm]
    | num n => unfold setPropertyValue; rw [hty]; dsimp only; rw [hm]
    | bool b => unfold setPropertyValue; rw [hty]; dsimp only; rw [hm]
    | arr es => unfold setPropertyValue; rw [hty]; dsimp only; rw [hm]
  · intro o0 rest ho ho2 hfind
    cases v with
    | null => exact absurd rfl hv
    | str sv => unfold setPropertyValue; rw [hty]; dsimp only; rw [hfind, ho]; simp only [List.head?_cons]; rw [if_neg ho2]
    | num n => unfold setPropertyValue; rw [hty]; dsimp only; rw [hfind, ho]; simp only [List.head?_cons]; rw [if_neg ho2]
    | bool b => unfold setPropertyValue; rw [hty]; dsimp only; rw [hfind, ho]; simp only [List.head?_cons]; rw [if_neg ho2]
    | arr es => unfold setPropertyValue; rw [hty]; dsimp only; rw [hfind, ho]; simp only [List.head?_cons]; rw [if_neg ho2]
  · intro ho
    cases v with
    | null => exact absurd rfl hv
    | str sv => unfold setPropertyValue; rw [hty]; dsimp only; rw [ho]; rfl
    | num n => unfold setPropertyValue; rw [hty]; dsimp only; rw [ho]; rfl
    | bool b => unfold setPropertyValue; rw [hty]; dsimp only; rw [ho]; rfl
    | arr es => unfold setPropertyValue; rw [hty]; dsimp only; rw [ho]; rfl
  · intro rest ho hfind
    cases v with
    | null => exact absurd rfl hv
    | str sv => unfold setPropertyValue; rw [hty]; dsimp only; rw [hfind, ho]; simp only [List.head?_cons]; rw [if_pos trivial]
    | num n => unfold setPropertyValue; rw [hty]; dsimp only; rw [hfind, ho]; simp only [List.head?_cons]; rw [if_pos trivial]
    | bool b => unfold setPropertyValue; rw [hty]; dsimp only; rw [hfind, ho]; simp only [List.head?_cons]; rw [if_pos trivial]
    | arr es => unfold setPropertyValue; rw [hty]; dsimp only; rw [hfind, ho]; simp only [List.head?_cons]; rw [if_pos trivial]

/-- Witness for C3: "done" matches the declared choice "Done"
case-insensitively and is written under the declared casing. -/
theorem C3_witness :
    setPropertyValue "Status" ⟨.status, ["Todo", "Done"]⟩ (.str "done") = some (.statusW "Done") :=
  (C3_status_encode_fallback "Status" ⟨.status, ["Todo", "Done"]⟩ (.str "done") rfl
    (by intro h; cases h)).2.1 "Done" (by rfl)

/-- Claim C7: on a schema with a (non-empty-named) title property, a
record whose decoded title value is absent or the empty string gets the
literal title "Untitled", and a record with a non-empty decoded title
string gets exactly that string. -/
theorem C7_title_untitled_fallback (schema : Schema) (page : RawPage) (t : String)
    (ht : titleProperty schema = some t) (ht2 : t ≠ "") :
    ((lookupKey t (decodeProperties page) = none ∨
        lookupKey t (decodeProperties page) = some (.str "") →
      (toUniform schema page).title = some (.str "Untitled"))
    ∧ ∀ sv, lookupKey t (decodeProperties page) = some (.str sv) → sv ≠ "" →
        (toUniform schema page).title = some (.str sv)) := by
  have hproj : (toUniform schema page).title = uniformTitle schema (decodeProperties page) := rfl
  constructor
  · intro hl
    rw [hproj]
    unfold uniformTitle
    rw [ht]
    dsimp only
    rw [if_neg ht2]
    rcases hl with hl | hl
    · rw [hl]
    · rw [hl]
      rfl
  · intro sv hl hsv
    rw [hproj]
    unfold uniformTitle
    rw [ht]
    dsimp only
    rw [if_neg ht2, hl]
    dsimp only
    have : jsTruthy (.str sv) = true := by
      simp [jsTruthy, hsv]
    rw [this]
    rfl

/-- Witness for C7: a page without the title key decodes to the literal
"Untitled" title. -/
theorem C7_witness :
    (toUniform ⟨[("Name", ⟨.title, []⟩)]⟩ ⟨"p7", "t7", []⟩).title = some (.str "Untitled") :=
  (C7_title_untitled_fallback ⟨[("Name", ⟨.title, []⟩)]⟩ ⟨"p7", "t7", []⟩ "Name" rfl
    (by decide)).1 (Or.inl rfl)

/-- Counterexample for C2: on a schema with no boolean-like property the
GET handler leaves `completed` unset (absent from the record), rather
than setting it to false as the claim states. -/
theorem C2_counterexample :
    (toUniform ⟨[("Name", ⟨.title, []⟩)]⟩ ⟨"p1", "t1", [("Name", RawProp.title ["Task"])]⟩).completed = none
    ∧ ¬ (toUniform ⟨[("Name", ⟨.title, []⟩)]⟩ ⟨"p1", "t1", [("Name", RawProp.title ["Task"])]⟩).completed = some false := by
  constructor
  · rfl
  · intro h
    rw [show (toUniform ⟨[("Name", ⟨.title, []⟩)]⟩ ⟨"p1", "t1", [("Name", RawProp.title ["Task"])]⟩).completed = none from rfl] at h
    cases h

/-- Claim C2 (amended): when the schema has a (non-empty-named) first
boolean-like property, `completed` decodes its value — a boolean is taken
directly, a string is true exactly when its lowercase form is in the done
vocabulary, and an absent or other-typed value gives false; when the
schema has no boolean-like property, `completed` is left unset (`none`),
not false. -/
theorem C2_completed_decoding (schema : Schema) (page : RawPage) :
    (checkboxProperties schema = [] → (toUniform schema page).completed = none)
    ∧ (∀ cb rest, checkboxProperties schema = cb :: rest → cb ≠ "" →
        ((∀ b, lookupKey cb (decodeProperties page) = some (.bool b) →
            (toUniform schema page).completed = some b)
        ∧ (∀ sv, lookupKey cb (decodeProperties page) = some (.str sv) →
            (toUniform schema page).completed = some (doneNames.contains (jsToLower sv)))
        ∧ (lookupKey cb (decodeProperties page) = none →
            (toUniform schema page).completed = some false)
        ∧ (∀ v, lookupKey cb (decodeProperties page) = some v →
            (∀ b, v ≠ .bool b) → (∀ sv, v ≠ .str sv) →
            (toUniform schema page).completed = some false))) := by
  have hproj : (toUniform schema page).completed = uniformCompleted schema (decodeProperties page) := rfl
  constructor
  · intro h
    rw [hproj]
    unfold uniformCompleted
    rw [h]
    rfl
  · intro cb rest hcb hcb2
    refine ⟨?_, ?_, ?_, ?_⟩
    · intro b hl
      rw [hproj]
      unfold uniformCompleted
      rw [hcb]
      simp only [List.head?_cons]
      rw [if_neg hcb2, hl]
    · intro sv hl
      rw [hproj]
      unfold uniformCompleted
      rw [hcb]
      simp only [List.head?_cons]
      rw [if_neg hcb2, hl]
    · intro hl
      rw [hproj]
      unfold uniformCompleted
      rw [hcb]
      simp only [List.head?_cons]
      rw [if_neg hcb2, hl]
    · intro v hl hnb hns
      rw [hproj]
      unfold uniformCompleted
      rw [hcb]
      simp only [List.head?_cons]
      rw [if_neg hcb2, hl]
      cases v with
      | bool b => exact absurd rfl (hnb b)
      | str sv => exact absurd rfl (hns sv)
      | null => rfl
      | num n => rfl
      | arr es => rfl

/-- Witness for C2: a checkbox property decodes directly into
`completed`. -/
theorem C2_witness :
    (toUniform ⟨[("Done2", ⟨.checkbox, []⟩)]⟩ ⟨"p2", "t2", [("Done2", RawProp.checkbox true)]⟩).completed = some true :=
  ((C2_completed_decoding ⟨[("Done2", ⟨.checkbox, []⟩)]⟩
      ⟨"p2", "t2", [("Done2", RawProp.checkbox true)]⟩).2 "Done2" [] rfl (by decide)).1 true rfl

/-- Claim C9: the PATCH completed-flag merge changes at most the entry
keyed by the schema's first boolean-like property — when it completes
without throwing, every other key of the payload looks up unchanged —
and when the request has no completed key or the schema has no
boolean-like property the payload is returned entirely unchanged. -/
theorem C9_applyCompletedFlag_frame (schema : Schema) (req : List (String × JSValue))
    (payload : List (String × WriteValue)) :
    (lookupKey "completed" req = none → applyCompletedFlag schema req payload = some payload)
    ∧ (checkboxProperties schema = [] → applyCompletedFlag schema req payload = some payload)
    ∧ (∀ out, applyCompletedFlag schema req payload = some out →
        ∀ k, (checkboxProperties schema).head? ≠ some k →
          lookupKey k out = lookupKey k payload) := by
  refine ⟨?_, ?_, ?_⟩
  · intro h
    unfold applyCompletedFlag
    rw [h]
  · intro h
    unfold applyCompletedFlag
    rw [h]
    cases lookupKey "completed" req <;> rfl
  · intro out hout k hk
    unfold applyCompletedFlag at hout
    cases hc : lookupKey "completed" req with
    | none =>
      rw [hc] at hout
      dsimp only at hout
      injection hout with h
      rw [h]
    | some c =>
      rw [hc] at hout
      dsimp only at hout
      cases hcb : (checkboxProperties schema).head? with
      | none =>
        rw [hcb] at hout
        dsimp only at hout
        injection hout with h
        rw [h]
      | some cb =>
        have hkcb : k ≠ cb := by
          intro he
          rw [hcb, he] at hk
          exact hk rfl
        rw [hcb] at hout
        dsimp only at hout
        cases hps : lookupKey cb schema.properties with
        | none =>
          rw [hps] at hout
          cases hout
        | some ps =>
          rw [hps] at hout
          dsimp only at hout
          cases hty : ps.type <;> rw [hty] at hout <;> dsimp only at hout
          case checkbox =>
            injection hout with h
            rw [← h]
            exact lookupKey_setKey_ne payload cb k _ hkcb
          case status =>
            cases hscn : statusCompletedName c ps.statusOptions with
            | none =>
              rw [hscn] at hout
              cases hout
            | some name =>
              rw [hscn] at hout
              dsimp only at hout
              injection hout with h
              rw [← h]
              exact lookupKey_setKey_ne payload cb k _ hkcb
          all_goals
            injection hout with h
            rw [h]

/-- Witness for C9: with no completed key in the request the payload
passes through the merge unchanged. -/
theorem C9_witness :
    applyCompletedFlag ⟨[("Done9", ⟨.checkbox, []⟩)]⟩ [("Name", .str "x")]
        [("Name", .titleW "x")] = some [("Name", .titleW "x")] :=
  (C9_applyCompletedFlag_frame ⟨[("Done9", ⟨.checkbox, []⟩)]⟩ [("Name", .str "x")]
    [("Name", .titleW "x")]).1 rfl

/-- Counterexample for C1: on a status property whose choices contain no
done-like name, `requestedCompleted = true` does not write a done-like
choice — the handler writes the first not-done choice "Todo" instead. -/
theorem C1_counterexample :
    applyCompletedFlag ⟨[("Status", ⟨.status, ["Todo"]⟩)]⟩ [("completed", .bool true)] [] =
        some [("Status", .statusW "Todo")]
    ∧ isDoneLike "Todo" = false :=
  ⟨rfl, rfl⟩

/-- Claim C1 (amended): for a schema whose first boolean-like property is
a Status property with non-empty choice names, the merge partitions the
choices into done-like and not-done subsets and writes: the first
done-like choice when the requested completed value is truthy and a
done-like choice exists; otherwise the first not-done choice; falling
back to the first done-like choice when no not-done choice exists; and
for a non-empty choices list the property is always set to some declared
choice. -/
theorem C1_status_partition (schema : Schema) (req : List (String × JSValue))
    (payload : List (String × WriteValue)) (cb : String) (ps : PropSchema) (c : JSValue)
    (hcb : (checkboxProperties schema).head? = some cb)
    (hps : lookupKey cb schema.properties = some ps)
    (hty : ps.type = PropKind.status)
    (hc : lookupKey "completed" req = some c)
    (hne : ∀ o ∈ ps.statusOptions, o ≠ "") :
    (∀ d rest, jsTruthy c = true → ps.statusOptions.filter (fun o => isDoneLike o) = d :: rest →
        applyCompletedFlag schema req payload = some (setKey payload cb (.statusW d)))
    ∧ (∀ n rest, (jsTruthy c = false ∨ ps.statusOptions.filter (fun o => isDoneLike o) = []) →
        ps.statusOptions.filter (fun o => !isDoneLike o) = n :: rest →
        applyCompletedFlag schema req payload = some (setKey payload cb (.statusW n)))
    ∧ (∀ d rest, ps.statusOptions.filter (fun o => !isDoneLike o) = [] →
        ps.statusOptions.filter (fun o => isDoneLike o) = d :: rest →
        applyCompletedFlag schema req payload = some (setKey payload cb (.statusW d)))
    ∧ (ps.statusOptions ≠ [] →
        ∃ name, name ∈ ps.statusOptions ∧
          applyCompletedFlag schema req payload = some (setKey payload cb (.statusW name))) := by
  have heq := applyCompletedFlag_status_eq schema req payload cb ps c hc hcb hps hty
  refine ⟨?_, ?_, ?_, ?_⟩
  · intro d rest htr hd
    rw [heq, statusCompletedName_done c _ d rest htr hd]
    rfl
  · intro n rest hcase hn
    have hnne : n ≠ "" :=
      hne n (List.mem_of_mem_filter (by rw [hn]; exact List.mem_cons_self n rest))
    rw [heq, statusCompletedName_notDone c _ n rest hcase hn hnne]
    rfl
  · intro d rest hn hd
    rw [heq, statusCompletedName_notDoneEmpty c _ d rest hn hd]
    rfl
  · intro h0
    obtain ⟨name, hmem, hscn⟩ := statusCompletedName_total c ps.statusOptions h0 hne
    refine ⟨name, hmem, ?_⟩
    rw [heq, hscn]
    rfl

/-- Witness for C1: on choices ["Todo", "Done"] a truthy completed flag
writes the first done-like choice "Done" (the spec's own worked
example). -/
theorem C1_witness :
    applyCompletedFlag ⟨[("Name", ⟨.title, []⟩), ("Status", ⟨.status, ["Todo", "Done"]⟩)]⟩
        [("completed", .bool true)] [] = some [("Status", .statusW "Done")] := by
  have h := (C1_status_partition ⟨[("Name", ⟨.title, []⟩), ("Status", ⟨.status, ["Todo", "Done"]⟩)]⟩
      [("completed", .bool true)] [] "Status" ⟨.status, ["Todo", "Done"]⟩ (.bool true)
      rfl rfl rfl rfl (by decide)).1 "Done" [] rfl (by rfl)
  rw [h]
  rfl

/-- Claim C4: a key appears in the POST-handler write payload exactly when
it is a requested key whose value is not the empty string (unless it is
the title property), that has a matching property definition in the
schema, and whose encoding is non-null; keys failing any of these
conditions — unknown property names included — are dropped without any
error (the builder is a total function). -/
theorem C4_writePayload_keys (schema : Schema) (req : List (String × JSValue)) (k : String) :
    k ∈ (toWritePayload schema req).map Prod.fst ↔
      ∃ v, (k, v) ∈ req
        ∧ (isEmptyStr v = false ∨ titleProperty schema = some k)
        ∧ ∃ ps, lookupKey k schema.properties = some ps ∧ setPropertyValue k ps v ≠ none := by
  unfold toWritePayload
  rw [mem_keys_wpFoldl]
  simp [wpIncluded]

end TaskNotion
